import Mathlib

/-!
Shallow embedding of the extension-bridging layer of the `python-rocksdb`
binding (`rocksdb/_rocksdb.pyx`): status translation, the comparator /
merge-operator / filter-policy bridge callbacks, the Options slot surface,
and the DB read operations and iterator wrappers, together with theorems
settling the specification claims about them.

The underlying storage engine is consumed as an opaque collaborator: its
`Status` values and per-call results are modelled as explicit data handed to
the embedded functions, never recomputed.
-/

set_option autoImplicit false

namespace PyRocks

/-! ## Engine status

The engine's `Status` is a result code plus free-text detail.  The source
consumes it only through the predicates `ok`, `IsNotFound`, `IsCorruption`,
`IsNotSupported`, `IsInvalidArgument`, `IsIOError`, `IsMergeInProgress`,
`IsIncomplete` and through `ToString`, so it is modelled as a single code
(the predicates of a real status are mutually exclusive) plus the detail
string returned by `ToString`. -/

inductive StatusCode where
  | ok
  | notFound
  | corruption
  | notSupported
  | invalidArgument
  | ioError
  | mergeInProgress
  | incomplete
  | other
deriving DecidableEq, Repr

structure Status where
  code : StatusCode
  detail : String
deriving DecidableEq, Repr

def Status.isOk (s : Status) : Bool := s.code = StatusCode.ok

def Status.IsNotFound (s : Status) : Bool := s.code = StatusCode.notFound

def Status.IsCorruption (s : Status) : Bool := s.code = StatusCode.corruption

def Status.IsNotSupported (s : Status) : Bool := s.code = StatusCode.notSupported

def Status.IsInvalidArgument (s : Status) : Bool := s.code = StatusCode.invalidArgument

def Status.IsIOError (s : Status) : Bool := s.code = StatusCode.ioError

def Status.IsMergeInProgress (s : Status) : Bool := s.code = StatusCode.mergeInProgress

def Status.IsIncomplete (s : Status) : Bool := s.code = StatusCode.incomplete

def Status.ToString (s : Status) : String := s.detail

/-! ## Python-level exceptions

Modelled from the spec: the `errors` module (the taxonomy exception classes
`NotFound`, `Corruption`, `NotSupported`, `InvalidArgument`, `RocksIOError`,
`MergeInProgress`, `Incomplete`) is imported by `_rocksdb.pyx` but its file is
not under `src/`; per section 7 of the spec each class is a distinct error
kind carrying a message.  `exception`, `typeError` and `valueError` model the
built-in Python `Exception`, `TypeError` and `ValueError` that the source
raises directly. -/

inductive PyExc where
  | notFound (msg : String)
  | corruption (msg : String)
  | notSupported (msg : String)
  | invalidArgument (msg : String)
  | rocksIOError (msg : String)
  | mergeInProgress (msg : String)
  | incomplete (msg : String)
  | exception (msg : String)
  | typeError (msg : String)
  | valueError (msg : String)
deriving DecidableEq, Repr

def PyExc.msg : PyExc → String
  | .notFound m => m
  | .corruption m => m
  | .notSupported m => m
  | .invalidArgument m => m
  | .rocksIOError m => m
  | .mergeInProgress m => m
  | .incomplete m => m
  | .exception m => m
  | .typeError m => m
  | .valueError m => m

/-- Error kinds of the spec's closed taxonomy (section 7). -/
inductive ErrKind where
  | notFound
  | corruption
  | notSupported
  | invalidArgument
  | ioError
  | mergeInProgress
  | incomplete
  | unknownError
deriving DecidableEq, Repr

def PyExc.kind : PyExc → ErrKind
  | .notFound _ => .notFound
  | .corruption _ => .corruption
  | .notSupported _ => .notSupported
  | .invalidArgument _ => .invalidArgument
  | .rocksIOError _ => .ioError
  | .mergeInProgress _ => .mergeInProgress
  | .incomplete _ => .incomplete
  | .exception _ => .unknownError
  | .typeError _ => .invalidArgument
  | .valueError _ => .invalidArgument

/-- Errors the spec classifies as Invalid-Argument-class caller misuse
(section 7: "caller misuse, e.g. bad enum value, bad capability object"):
the taxonomy's `InvalidArgument` together with Python's built-in
`TypeError` and `ValueError`. -/
def PyExc.isInvalidArgumentClass (e : PyExc) : Bool :=
  e.kind = ErrKind.invalidArgument

/-! ## Status Translator (`check_status`, `_rocksdb.pyx` lines 38-63) -/

/-- Embedding of `check_status`: returns normally on an ok status, otherwise
raises the first matching taxonomy error in source order, each carrying
`st.ToString()`; the final catch-all raises a plain `Exception` with the
detail interpolated after a fixed prefix. -/
def check_status (st : Status) : Except PyExc Unit :=
  if st.isOk then
    .ok ()
  else if st.IsNotFound then
    .error (.notFound st.ToString)
  else if st.IsCorruption then
    .error (.corruption st.ToString)
  else if st.IsNotSupported then
    .error (.notSupported st.ToString)
  else if st.IsInvalidArgument then
    .error (.invalidArgument st.ToString)
  else if st.IsIOError then
    .error (.rocksIOError st.ToString)
  else if st.IsMergeInProgress then
    .error (.mergeInProgress st.ToString)
  else if st.IsIncomplete then
    .error (.incomplete st.ToString)
  else
    .error (.exception ("Unknown error: " ++ st.ToString))

/-- The spec's fixed priority-ordered classification of a non-ok status
(section 4.1), written from the spec's words: Not-Found, Corruption,
Not-Supported, Invalid-Argument, I/O-Error, Merge-In-Progress, Incomplete,
else Unknown-Error. -/
def specClassify (st : Status) : ErrKind :=
  if st.IsNotFound then .notFound
  else if st.IsCorruption then .corruption
  else if st.IsNotSupported then .notSupported
  else if st.IsInvalidArgument then .invalidArgument
  else if st.IsIOError then .ioError
  else if st.IsMergeInProgress then .mergeInProgress
  else if st.IsIncomplete then .incomplete
  else .unknownError

/-- C1: for every Status, the translator returns normally exactly on success;
otherwise it raises exactly one error whose kind is the spec's
priority-ordered classification and whose message carries the status's
original detail text. -/
theorem check_status_translates (st : Status) :
    (st.isOk = true → check_status st = Except.ok ()) ∧
    (st.isOk = false →
      ∃ e, check_status st = Except.error e ∧
        e.kind = specClassify st ∧
        ∃ p, e.msg = p ++ st.ToString) := by
  constructor
  · intro h
    simp [check_status, h]
  · intro h
    cases hc : st.code <;>
      simp_all [check_status, specClassify, Status.isOk, Status.IsNotFound,
        Status.IsCorruption, Status.IsNotSupported, Status.IsInvalidArgument,
        Status.IsIOError, Status.IsMergeInProgress, Status.IsIncomplete,
        PyExc.kind, PyExc.msg] <;>
      first
        | exact ⟨"", rfl⟩
        | exact ⟨"Unknown error: ", rfl⟩

/-- Witness for C1 at concrete statuses: an ok status passes, and a
corruption status with detail "bad block" raises a corruption-kind error
carrying the detail. -/
theorem check_status_translates_witness :
    check_status ⟨StatusCode.ok, ""⟩ = Except.ok () ∧
    ∃ e, check_status ⟨StatusCode.corruption, "bad block"⟩ = Except.error e ∧
      e.kind = specClassify ⟨StatusCode.corruption, "bad block"⟩ ∧
      ∃ p, e.msg = p ++ Status.ToString ⟨StatusCode.corruption, "bad block"⟩ :=
  ⟨(check_status_translates ⟨StatusCode.ok, ""⟩).1 rfl,
   (check_status_translates ⟨StatusCode.corruption, "bad block"⟩).2 rfl⟩

/-! ## Bridge callbacks (`_rocksdb.pyx` lines 123-128, 170-185, 265-361)

A caller-supplied callback is modelled as a function returning
`Except String A`: `Except.error tb` models the callback raising, with `tb`
the formatted traceback `traceback.format_exc()` would produce.  A bridge
that lets the fault escape its own body is modelled as returning
`Except String A` itself; a bridge with a `try`/`except` boundary returns a
plain value together with the list of lines written through the engine's
diagnostic logger. -/

/-- Embedding of `compare_callback` (lines 123-128): the body is a bare call
of the user object's `compare` with no `try`/`except`, so a raised fault
escapes the callback body uncaught and unlogged. -/
def compare_callback (compare : String → String → Except String Int)
    (a b : String) : Except String Int :=
  compare a b

/-- Embedding of `create_filter_callback` (lines 170-178): bare call of the
user object's `create_filter` on the decoded key list, appended to `dst`;
no fault boundary. -/
def create_filter_callback (create_filter : List String → Except String String)
    (keys : List String) : Except String String :=
  create_filter keys

/-- Embedding of `key_may_match_callback` (lines 180-185): bare call of the
user object's `key_may_match`; no fault boundary. -/
def key_may_match_callback (key_may_match : String → String → Except String Bool)
    (key filt : String) : Except String Bool :=
  key_may_match key filt

/-- Result of a merge-family bridge call: the boolean returned to the
engine, the value written into `new_value` (if any), and the lines logged
through the engine's diagnostic logger. -/
structure MergeCallbackResult where
  returned : Bool
  new_value : Option String
  logged : List String
deriving DecidableEq, Repr

/-- Embedding of `merge_callback` (lines 265-297): the user object's `merge`
is called inside a `try`; on `ret[0]` truthy the merged value is written and
`True` returned, on falsy `False` is returned, and on any raised fault the
traceback is logged through the engine logger and `False` returned. -/
def merge_callback
    (merge : String → Option String → String → Except String (Bool × String))
    (key : String) (existing_value : Option String) (value : String) :
    MergeCallbackResult :=
  match merge key existing_value value with
  | .ok (true, v) => ⟨true, some v, []⟩
  | .ok (false, _) => ⟨false, none, []⟩
  | .error tb => ⟨false, none, [("Error in merge_callback: " ++ tb)]⟩

/-- Embedding of `full_merge_callback` (lines 299-331): same boundary as
`merge_callback`, calling the user object's `full_merge` on the decoded
operand list. -/
def full_merge_callback
    (full_merge : String → Option String → List String →
      Except String (Bool × String))
    (key : String) (existing_value : Option String)
    (operand_list : List String) : MergeCallbackResult :=
  match full_merge key existing_value operand_list with
  | .ok (true, v) => ⟨true, some v, []⟩
  | .ok (false, _) => ⟨false, none, []⟩
  | .error tb => ⟨false, none, [("Error in full_merge_callback: " ++ tb)]⟩

/-- Embedding of `partial_merge_callback` (lines 333-361): same boundary,
calling the user object's `partial_merge` on the two operands. -/
def partial_merge_callback
    (partial_merge : String → String → String → Except String (Bool × String))
    (key left_op right_op : String) : MergeCallbackResult :=
  match partial_merge key left_op right_op with
  | .ok (true, v) => ⟨true, some v, []⟩
  | .ok (false, _) => ⟨false, none, []⟩
  | .error tb => ⟨false, none, [("Error in partial_merge_callback: " ++ tb)]⟩

/-- C2 counterexample: the claim says every bridge callback (including the
comparator's `compare` and the filter's `key_may_match`) catches a raised
fault, logs it, and converts it to the designated failure value; but the
embedded `compare_callback` and `key_may_match_callback` propagate the
fault unchanged at this concrete input, with nothing logged. -/
theorem compare_callback_fault_escapes :
    compare_callback (fun _ _ => Except.error "boom") "a" "b" =
      Except.error "boom" ∧
    key_may_match_callback (fun _ _ => Except.error "boom") "k" "f" =
      Except.error "boom" ∧
    create_filter_callback (fun _ => Except.error "boom") ["k"] =
      Except.error "boom" :=
  ⟨rfl, rfl, rfl⟩

/-- C2 amended: faults raised in the three merge-family callbacks are caught
at the bridge boundary, logged through the engine's diagnostic logger with
the traceback, and converted to the failure return (`False`, no value
written); faults raised in the comparator and filter callbacks are not
contained — those bridges have no fault boundary and the fault escapes the
callback body unchanged. -/
theorem callback_fault_boundaries :
    (∀ (m : String → Option String → String → Except String (Bool × String))
        (k : String) (ev : Option String) (v tb : String),
      m k ev v = Except.error tb →
      merge_callback m k ev v =
        ⟨false, none, [("Error in merge_callback: " ++ tb)]⟩) ∧
    (∀ (fm : String → Option String → List String →
          Except String (Bool × String))
        (k : String) (ev : Option String) (ops : List String) (tb : String),
      fm k ev ops = Except.error tb →
      full_merge_callback fm k ev ops =
        ⟨false, none, [("Error in full_merge_callback: " ++ tb)]⟩) ∧
    (∀ (pm : String → String → String → Except String (Bool × String))
        (k l r tb : String),
      pm k l r = Except.error tb →
      partial_merge_callback pm k l r =
        ⟨false, none, [("Error in partial_merge_callback: " ++ tb)]⟩) ∧
    (∀ (c : String → String → Except String Int) (a b tb : String),
      c a b = Except.error tb → compare_callback c a b = Except.error tb) ∧
    (∀ (cf : List String → Except String String)
        (keys : List String) (tb : String),
      cf keys = Except.error tb →
      create_filter_callback cf keys = Except.error tb) ∧
    (∀ (km : String → String → Except String Bool) (k f tb : String),
      km k f = Except.error tb →
      key_may_match_callback km k f = Except.error tb) := by
  refine ⟨?_, ?_, ?_, ?_, ?_, ?_⟩ <;> intros <;>
    simp_all [merge_callback, full_merge_callback, partial_merge_callback,
      compare_callback, create_filter_callback, key_may_match_callback]

/-- Witness for the amended C2 at concrete raising callbacks. -/
theorem callback_fault_boundaries_witness :
    merge_callback (fun _ _ _ => Except.error "tb0") "k" none "v" =
      ⟨false, none, [("Error in merge_callback: " ++ "tb0")]⟩ ∧
    full_merge_callback (fun _ _ _ => Except.error "tb1") "k" none ["o"] =
      ⟨false, none, [("Error in full_merge_callback: " ++ "tb1")]⟩ ∧
    partial_merge_callback (fun _ _ _ => Except.error "tb2") "k" "l" "r" =
      ⟨false, none, [("Error in partial_merge_callback: " ++ "tb2")]⟩ ∧
    compare_callback (fun _ _ => Except.error "tb3") "a" "b" =
      Except.error "tb3" :=
  ⟨callback_fault_boundaries.1 _ "k" none "v" "tb0" rfl,
   callback_fault_boundaries.2.1 _ "k" none ["o"] "tb1" rfl,
   callback_fault_boundaries.2.2.1 _ "k" "l" "r" "tb2" rfl,
   callback_fault_boundaries.2.2.2.1 _ "a" "b" "tb3" rfl⟩

/-! ## DB read operations (`_rocksdb.pyx` lines 996-1064)

The engine call itself (`self.db.Get`, `self.db.KeyMayExist`) is the opaque
collaborator: its outcome for the requested key is passed in explicitly (the
status and the string the engine wrote into `res` / `value`, and for
`KeyMayExist` the booleans it returned and wrote into `value_found`). -/

/-- Embedding of `DB.get` (lines 996-1010): ok returns the value, NotFound
returns Python `None` (modelled `none`), any other status is handed to
`check_status`; if that returned normally the Python body would fall off the
end and return `None`. -/
def DB.get (st : Status) (res : String) : Except PyExc (Option String) :=
  if st.isOk then
    .ok (some res)
  else if st.IsNotFound then
    .ok none
  else
    match check_status st with
    | .ok _ => .ok none
    | .error e => .error e

/-- C3: `get` returns the stored value on ok, the distinguished absent
result (no error) on NotFound, and otherwise raises exactly the error the
status translator produces. -/
theorem DB_get_spec (st : Status) (res : String) :
    (st.isOk = true → DB.get st res = Except.ok (some res)) ∧
    (st.IsNotFound = true → DB.get st res = Except.ok none) ∧
    (st.isOk = false → st.IsNotFound = false →
      ∃ e, check_status st = Except.error e ∧
        DB.get st res = Except.error e) := by
  refine ⟨fun h => by simp [DB.get, h], fun h => ?_, fun h1 h2 => ?_⟩
  · have hok : st.isOk = false := by
      simp_all [Status.isOk, Status.IsNotFound]
    simp [DB.get, hok, h]
  · cases hc : st.code <;>
      simp_all [DB.get, check_status, Status.isOk, Status.IsNotFound,
        Status.IsCorruption, Status.IsNotSupported, Status.IsInvalidArgument,
        Status.IsIOError, Status.IsMergeInProgress, Status.IsIncomplete]

/-- Witness for C3 at concrete statuses: ok, NotFound and corruption. -/
theorem DB_get_spec_witness :
    DB.get ⟨StatusCode.ok, ""⟩ "v" = Except.ok (some "v") ∧
    DB.get ⟨StatusCode.notFound, "nf"⟩ "v" = Except.ok none ∧
    ∃ e, check_status ⟨StatusCode.corruption, "c"⟩ = Except.error e ∧
      DB.get ⟨StatusCode.corruption, "c"⟩ "v" = Except.error e :=
  ⟨(DB_get_spec ⟨StatusCode.ok, ""⟩ "v").1 rfl,
   (DB_get_spec ⟨StatusCode.notFound, "nf"⟩ "v").2.1 rfl,
   (DB_get_spec ⟨StatusCode.corruption, "c"⟩ "v").2.2 rfl rfl⟩

/-- Embedding of `DB.key_may_exist` (lines 1036-1064).  The engine's
`KeyMayExist` behaviour for the requested key is given by the returned
boolean `exists_`, the out-parameter boolean `value_found` (written only by
the four-argument overload used when `fetch` is true), and the string
written into `value`. -/
def DB.key_may_exist (fetch : Bool) (exists_ : Bool) (value_found : Bool)
    (value : String) : Bool × Option String :=
  if fetch then
    if exists_ then
      if value_found then (true, some value) else (true, none)
    else
      (false, none)
  else
    (exists_, none)

/-- C8: `key_may_exist` returns `(maybe_exists, value)` where a false first
component always comes with an absent value, `fetch = false` always yields
an absent value, and with `fetch = true` the value is present exactly when
the engine both reports possible existence and resolved the value without a
full read. -/
theorem key_may_exist_spec (fetch exists_ value_found : Bool)
    (value : String) :
    ((DB.key_may_exist fetch exists_ value_found value).1 = false →
      (DB.key_may_exist fetch exists_ value_found value).2 = none) ∧
    (fetch = false →
      (DB.key_may_exist fetch exists_ value_found value).2 = none) ∧
    (fetch = true → exists_ = true → value_found = true →
      DB.key_may_exist fetch exists_ value_found value = (true, some value)) ∧
    (fetch = true → value_found = false →
      (DB.key_may_exist fetch exists_ value_found value).2 = none) := by
  cases fetch <;> cases exists_ <;> cases value_found <;>
    simp [DB.key_may_exist]

/-- Witness for C8 at concrete probe outcomes. -/
theorem key_may_exist_spec_witness :
    DB.key_may_exist true true true "v" = (true, some "v") ∧
    (DB.key_may_exist false true true "v").2 = none ∧
    (DB.key_may_exist true true false "v").2 = none :=
  ⟨(key_may_exist_spec true true true "v").2.2.1 rfl rfl rfl,
   (key_may_exist_spec false true true "v").2.1 rfl,
   (key_may_exist_spec true true false "v").2.2.2 rfl rfl⟩

/-! ## `DB.multi_get` (`_rocksdb.pyx` lines 1012-1034)

The engine's `MultiGet` yields one status and one written value per
requested key; they are passed in as a list of pairs aligned with the key
list.  The Python dict `ret_dict` is modelled as an association list with
dict insertion semantics: assigning to an existing key overwrites its
entry in place, assigning a fresh key appends. -/

def dictInsert (d : List (String × Option String)) (k : String)
    (v : Option String) : List (String × Option String) :=
  if d.any (fun p => p.1 == k) then
    d.map (fun p => if p.1 == k then (k, v) else p)
  else
    d ++ [(k, v)]

def keysOf (d : List (String × Option String)) : List String :=
  d.map Prod.fst

def dictLookup (d : List (String × Option String)) (k : String) :
    Option (Option String) :=
  (d.find? (fun p => p.1 == k)).map Prod.snd

/-- Embedding of the `for index in range(len(keys))` loop of `multi_get`:
ok statuses store the value, NotFound stores Python `None`, anything else
goes to `check_status` (which raises; were it to return, the iteration
would simply add no entry). -/
def multi_get_loop : List String → List (Status × String) →
    List (String × Option String) →
    Except PyExc (List (String × Option String))
  | [], _, acc => .ok acc
  | _ :: _, [], acc => .ok acc
  | k :: ks, (st, v) :: rs, acc =>
    if st.isOk then
      multi_get_loop ks rs (dictInsert acc k (some v))
    else if st.IsNotFound then
      multi_get_loop ks rs (dictInsert acc k none)
    else
      match check_status st with
      | .error e => .error e
      | .ok _ => multi_get_loop ks rs acc

/-- Embedding of `DB.multi_get` (lines 1012-1034): the per-key loop starting
from the empty dict. -/
def DB.multi_get (keys : List String) (results : List (Status × String)) :
    Except PyExc (List (String × Option String)) :=
  multi_get_loop keys results []

/-- The per-key classification of a non-erroring result: present keys map
to their value, NotFound keys to the distinguished absent result. -/
def resultEntry (st : Status) (v : String) : Option String :=
  if st.isOk then some v else none

lemma check_status_isError {st : Status} (h : st.isOk = false) :
    ∃ e, check_status st = Except.error e := by
  cases hc : st.code <;>
    simp_all [check_status, Status.isOk, Status.IsNotFound,
      Status.IsCorruption, Status.IsNotSupported, Status.IsInvalidArgument,
      Status.IsIOError, Status.IsMergeInProgress, Status.IsIncomplete]

lemma dictInsert_any_iff (d : List (String × Option String)) (k : String) :
    (d.any (fun p => p.1 == k)) = true ↔ k ∈ keysOf d := by
  simp [keysOf, List.any_eq_true, List.mem_map]

lemma dictInsert_keys (d : List (String × Option String)) (k : String)
    (v : Option String) :
    keysOf (dictInsert d k v) =
      if d.any (fun p => p.1 == k) then keysOf d else keysOf d ++ [k] := by
  unfold dictInsert
  split
  · simp only [keysOf, List.map_map]
    apply List.map_congr_left
    intro p _
    simp only [Function.comp_apply]
    by_cases h : p.1 = k
    · simp [h]
    · simp [h]
  · simp [keysOf]

lemma dictInsert_mem (d : List (String × Option String)) (k : String)
    (v : Option String) (x : String) :
    x ∈ keysOf (dictInsert d k v) ↔ x = k ∨ x ∈ keysOf d := by
  rw [dictInsert_keys]
  split
  · rename_i h
    rw [dictInsert_any_iff] at h
    constructor
    · exact Or.inr
    · rintro (rfl | hx)
      · exact h
      · exact hx
  · simp [or_comm]

lemma dictInsert_nodup {d : List (String × Option String)} {k : String}
    {v : Option String} (h : (keysOf d).Nodup) :
    (keysOf (dictInsert d k v)).Nodup := by
  rw [dictInsert_keys]
  split
  · exact h
  · rename_i hna
    rw [List.nodup_append]
    refine ⟨h, List.nodup_singleton k, ?_⟩
    intro x hx hk
    rw [List.mem_singleton] at hk
    subst hk
    have := (dictInsert_any_iff d x).2 hx
    simp_all

lemma find_map_overwrite (d : List (String × Option String)) (k : String)
    (v : Option String) (h : (d.any fun p => p.1 == k) = true) :
    (d.map fun p => if p.1 == k then (k, v) else p).find?
      (fun p => p.1 == k) = some (k, v) := by
  induction d with
  | nil => simp at h
  | cons p ds ih =>
    simp only [List.map_cons, List.find?_cons]
    by_cases hp : p.1 = k
    · have hhead : (if (p.1 == k) = true then (k, v) else p) = (k, v) := by
        simp [hp]
      simp only [hhead, beq_self_eq_true]
    · have hhead : (if (p.1 == k) = true then (k, v) else p) = p := by
        simp [hp]
      have hds : (ds.any fun p => p.1 == k) = true := by
        simp_all
      have hpk : (p.1 == k) = false := by
        simp [hp]
      rw [hhead]
      simp only [hpk]
      exact ih hds

lemma find_map_other (d : List (String × Option String)) (k x : String)
    (v : Option String) (hne : x ≠ k) :
    (d.map fun p => if p.1 == k then (k, v) else p).find?
      (fun p => p.1 == x) = d.find? (fun p => p.1 == x) := by
  induction d with
  | nil => rfl
  | cons p ds ih =>
    simp only [List.map_cons, List.find?_cons]
    by_cases hp : p.1 = k
    · have hhead : (if (p.1 == k) = true then (k, v) else p) = (k, v) := by
        simp [hp]
      have hkx : ((k : String) == x) = false := by
        rw [beq_eq_false_iff_ne]
        exact fun hh => hne hh.symm
      have hpx : (p.1 == x) = false := by
        rw [beq_eq_false_iff_ne, hp]
        exact fun hh => hne hh.symm
      simp only [hhead, hkx, hpx]
      exact ih
    · have hhead : (if (p.1 == k) = true then (k, v) else p) = p := by
        simp [hp]
      rw [hhead]
      cases hx : (p.1 == x)
      · simp only [hx]
        exact ih
      · simp only [hx]

lemma dictLookup_dictInsert_self (d : List (String × Option String))
    (k : String) (v : Option String) :
    dictLookup (dictInsert d k v) k = some v := by
  unfold dictInsert
  split
  · rename_i h
    rw [dictLookup, find_map_overwrite d k v h]
    rfl
  · rename_i h
    have hnone : d.find? (fun p => p.1 == k) = none := by
      rw [List.find?_eq_none]
      intro p hp hpk
      exact h (List.any_eq_true.2 ⟨p, hp, hpk⟩)
    rw [dictLookup, List.find?_append, hnone]
    simp [List.find?]

lemma dictLookup_dictInsert_other (d : List (String × Option String))
    {k x : String} (v : Option String) (hne : x ≠ k) :
    dictLookup (dictInsert d k v) x = dictLookup d x := by
  unfold dictInsert
  split
  · rw [dictLookup, find_map_other d k x v hne]
    rfl
  · have hkx : ((k : String) == x) = false := by
      rw [beq_eq_false_iff_ne]
      exact fun hh => hne hh.symm
    have h2 : List.find? (fun p => p.1 == x) [(k, v)] = none := by
      simp [List.find?_cons, hkx]
    rw [dictLookup, List.find?_append, h2, dictLookup]
    cases hfd : d.find? (fun p => p.1 == x) <;> simp [hfd]

/-- A key not among the requested keys keeps its pre-loop entry. -/
lemma multi_get_loop_lookup_untouched :
    ∀ (keys : List String) (results : List (Status × String))
      (acc d : List (String × Option String)) (x : String),
    (∀ p ∈ results, p.1.isOk = true ∨ p.1.IsNotFound = true) →
    multi_get_loop keys results acc = .ok d →
    x ∉ keys →
    dictLookup d x = dictLookup acc x := by
  intro keys
  induction keys with
  | nil =>
    intro results acc d x _ hrun _
    simp only [multi_get_loop] at hrun
    cases hrun
    rfl
  | cons k ks ih =>
    intro results acc d x hgood hrun hnx
    cases results with
    | nil =>
      simp only [multi_get_loop] at hrun
      cases hrun
      rfl
    | cons r rs =>
      obtain ⟨st, v⟩ := r
      have hxk : x ≠ k := fun h => hnx (h ▸ List.mem_cons_self k ks)
      have hxks : x ∉ ks := fun h => hnx (List.mem_cons_of_mem k h)
      have hgst := hgood (st, v) (List.mem_cons_self _ _)
      simp only [multi_get_loop] at hrun
      rcases hgst with hok | hnf
      · rw [if_pos hok] at hrun
        have := ih rs (dictInsert acc k (some v)) d x
          (fun p hp => hgood p (List.mem_cons_of_mem _ hp)) hrun hxks
        rw [this, dictLookup_dictInsert_other acc (some v) hxk]
      · by_cases hok : st.isOk = true
        · rw [if_pos hok] at hrun
          have := ih rs (dictInsert acc k (some v)) d x
            (fun p hp => hgood p (List.mem_cons_of_mem _ hp)) hrun hxks
          rw [this, dictLookup_dictInsert_other acc (some v) hxk]
        · rw [if_neg hok, if_pos hnf] at hrun
          have := ih rs (dictInsert acc k none) d x
            (fun p hp => hgood p (List.mem_cons_of_mem _ hp)) hrun hxks
          rw [this, dictLookup_dictInsert_other acc none hxk]

/-- Key-set and uniqueness invariant of the loop when no per-key error
occurs. -/
lemma multi_get_loop_ok :
    ∀ (keys : List String) (results : List (Status × String))
      (acc : List (String × Option String)),
    results.length = keys.length →
    (∀ p ∈ results, p.1.isOk = true ∨ p.1.IsNotFound = true) →
    ∃ d, multi_get_loop keys results acc = .ok d ∧
      (∀ x, x ∈ keysOf d ↔ x ∈ keys ∨ x ∈ keysOf acc) ∧
      ((keysOf acc).Nodup → (keysOf d).Nodup) := by
  intro keys
  induction keys with
  | nil =>
    intro results acc hlen _
    refine ⟨acc, rfl, ?_, fun h => h⟩
    simp
  | cons k ks ih =>
    intro results acc hlen hgood
    cases results with
    | nil => simp at hlen
    | cons r rs =>
      obtain ⟨st, v⟩ := r
      have hlen' : rs.length = ks.length := by
        simpa using hlen
      have hgood' : ∀ p ∈ rs, p.1.isOk = true ∨ p.1.IsNotFound = true :=
        fun p hp => hgood p (List.mem_cons_of_mem _ hp)
      have hgst := hgood (st, v) (List.mem_cons_self _ _)
      have step : ∀ (w : Option String),
          (∃ d, multi_get_loop ks rs (dictInsert acc k w) = .ok d ∧
            (∀ x, x ∈ keysOf d ↔ x ∈ ks ∨ x ∈ keysOf (dictInsert acc k w)) ∧
            ((keysOf (dictInsert acc k w)).Nodup → (keysOf d).Nodup)) →
          ∃ d, multi_get_loop ks rs (dictInsert acc k w) = .ok d ∧
            (∀ x, x ∈ keysOf d ↔ x ∈ k :: ks ∨ x ∈ keysOf acc) ∧
            ((keysOf acc).Nodup → (keysOf d).Nodup) := by
        rintro w ⟨d, hrun, hmem, hnd⟩
        refine ⟨d, hrun, ?_, fun h => hnd (dictInsert_nodup h)⟩
        intro x
        rw [hmem x, dictInsert_mem, List.mem_cons]
        tauto
      rcases hgst with hok | hnf
      · refine step (some v) (ih rs (dictInsert acc k (some v)) hlen' hgood')
          |>.imp fun d hd => ?_
        · simpa [multi_get_loop, hok] using hd
      · by_cases hok : st.isOk = true
        · refine step (some v) (ih rs (dictInsert acc k (some v)) hlen' hgood')
            |>.imp fun d hd => ?_
          · simpa [multi_get_loop, hok] using hd
        · refine step none (ih rs (dictInsert acc k none) hlen' hgood')
            |>.imp fun d hd => ?_
          · simpa [multi_get_loop, hok, hnf] using hd

/-- Per-key value classification of the loop result, for duplicate-free
request lists. -/
lemma multi_get_loop_values :
    ∀ (keys : List String) (results : List (Status × String))
      (acc d : List (String × Option String)),
    (∀ p ∈ results, p.1.isOk = true ∨ p.1.IsNotFound = true) →
    (keys.Nodup) →
    multi_get_loop keys results acc = .ok d →
    ∀ pr ∈ keys.zip results,
      dictLookup d pr.1 = some (resultEntry pr.2.1 pr.2.2) := by
  intro keys
  induction keys with
  | nil =>
    intro results acc d _ _ _ pr hpr
    simp at hpr
  | cons k ks ih =>
    intro results acc d hgood hnodup hrun pr hpr
    cases results with
    | nil => simp at hpr
    | cons r rs =>
      obtain ⟨st, v⟩ := r
      have hgood' : ∀ p ∈ rs, p.1.isOk = true ∨ p.1.IsNotFound = true :=
        fun p hp => hgood p (List.mem_cons_of_mem _ hp)
      have hgst := hgood (st, v) (List.mem_cons_self _ _)
      have hknks : k ∉ ks := (List.nodup_cons.1 hnodup).1
      have hnd' : ks.Nodup := (List.nodup_cons.1 hnodup).2
      simp only [List.zip_cons_cons, List.mem_cons] at hpr
      have main : ∀ (w : Option String),
          multi_get_loop ks rs (dictInsert acc k w) = .ok d →
          dictLookup d k = some w := by
        intro w hrun'
        rw [multi_get_loop_lookup_untouched ks rs (dictInsert acc k w) d k
          hgood' hrun' hknks]
        exact dictLookup_dictInsert_self acc k w
      rcases hgst with hok | hnf
      · rw [multi_get_loop, if_pos hok] at hrun
        rcases hpr with rfl | htl
        · simpa [resultEntry, hok] using main (some v) hrun
        · exact ih rs (dictInsert acc k (some v)) d hgood' hnd' hrun pr htl
      · by_cases hok : st.isOk = true
        · rw [multi_get_loop, if_pos hok] at hrun
          rcases hpr with rfl | htl
          · simpa [resultEntry, hok] using main (some v) hrun
          · exact ih rs (dictInsert acc k (some v)) d hgood' hnd' hrun pr htl
        · rw [multi_get_loop, if_neg hok, if_pos hnf] at hrun
          rcases hpr with rfl | htl
          · simpa [resultEntry, hok] using main none hrun
          · exact ih rs (dictInsert acc k none) d hgood' hnd' hrun pr htl

/-- The first per-key error aborts the loop with the translator's error. -/
lemma multi_get_loop_first_error :
    ∀ (ks1 : List String) (rs1 : List (Status × String)) (k : String)
      (ks2 : List String) (st : Status) (v : String)
      (rs2 : List (Status × String)) (acc : List (String × Option String)),
    rs1.length = ks1.length →
    (∀ p ∈ rs1, p.1.isOk = true ∨ p.1.IsNotFound = true) →
    st.isOk = false → st.IsNotFound = false →
    ∃ e, check_status st = Except.error e ∧
      multi_get_loop (ks1 ++ k :: ks2) (rs1 ++ (st, v) :: rs2) acc =
        Except.error e := by
  intro ks1
  induction ks1 with
  | nil =>
    intro rs1 k ks2 st v rs2 acc hlen _ hok hnf
    have : rs1 = [] := List.length_eq_zero.1 hlen
    subst this
    obtain ⟨e, he⟩ := check_status_isError hok
    exact ⟨e, he, by simp [multi_get_loop, hok, hnf, he]⟩
  | cons k1 ks1' ih =>
    intro rs1 k ks2 st v rs2 acc hlen hgood hok hnf
    cases rs1 with
    | nil => simp at hlen
    | cons r rs1' =>
      obtain ⟨st1, v1⟩ := r
      have hlen' : rs1'.length = ks1'.length := by simpa using hlen
      have hgood' : ∀ p ∈ rs1', p.1.isOk = true ∨ p.1.IsNotFound = true :=
        fun p hp => hgood p (List.mem_cons_of_mem _ hp)
      have hg1 := hgood (st1, v1) (List.mem_cons_self _ _)
      rcases hg1 with h1 | h1
      · obtain ⟨e, he, hrun⟩ :=
          ih rs1' k ks2 st v rs2 (dictInsert acc k1 (some v1)) hlen' hgood'
            hok hnf
        exact ⟨e, he, by simpa [multi_get_loop, h1] using hrun⟩
      · by_cases h0 : st1.isOk = true
        · obtain ⟨e, he, hrun⟩ :=
            ih rs1' k ks2 st v rs2 (dictInsert acc k1 (some v1)) hlen' hgood'
              hok hnf
          exact ⟨e, he, by simpa [multi_get_loop, h0] using hrun⟩
        · obtain ⟨e, he, hrun⟩ :=
            ih rs1' k ks2 st v rs2 (dictInsert acc k1 none) hlen' hgood'
              hok hnf
          exact ⟨e, he, by simpa [multi_get_loop, h0, h1] using hrun⟩

/-- C4: `multi_get` classifies each per-key result independently — when no
per-key status errors, it returns a mapping whose key set is exactly the
requested keys with exactly one entry per requested key, present keys
mapped to their value and NotFound keys to the absent result; and the first
erroring status in key order aborts the whole call with exactly the status
translator's error. -/
theorem multi_get_spec :
    (∀ (keys : List String) (results : List (Status × String)),
      results.length = keys.length →
      (∀ p ∈ results, p.1.isOk = true ∨ p.1.IsNotFound = true) →
      ∃ d, DB.multi_get keys results = Except.ok d ∧
        (∀ x, x ∈ keysOf d ↔ x ∈ keys) ∧
        (∀ x ∈ keys, (keysOf d).count x = 1) ∧
        (keys.Nodup →
          ∀ pr ∈ keys.zip results,
            dictLookup d pr.1 = some (resultEntry pr.2.1 pr.2.2))) ∧
    (∀ (ks1 : List String) (rs1 : List (Status × String)) (k : String)
        (ks2 : List String) (st : Status) (v : String)
        (rs2 : List (Status × String)),
      rs1.length = ks1.length →
      (∀ p ∈ rs1, p.1.isOk = true ∨ p.1.IsNotFound = true) →
      st.isOk = false → st.IsNotFound = false →
      ∃ e, check_status st = Except.error e ∧
        DB.multi_get (ks1 ++ k :: ks2) (rs1 ++ (st, v) :: rs2) =
          Except.error e) := by
  constructor
  · intro keys results hlen hgood
    obtain ⟨d, hrun, hmem, hnd⟩ := multi_get_loop_ok keys results [] hlen hgood
    have hmem' : ∀ x, x ∈ keysOf d ↔ x ∈ keys := by
      intro x
      rw [hmem x]
      simp [keysOf]
    refine ⟨d, hrun, hmem', ?_, ?_⟩
    · intro x hx
      exact List.count_eq_one_of_mem (hnd (by simp [keysOf]))
        ((hmem' x).2 hx)
    · intro hnodup pr hpr
      exact multi_get_loop_values keys results [] d hgood hnodup hrun pr hpr
  · intro ks1 rs1 k ks2 st v rs2 hlen hgood hok hnf
    exact multi_get_loop_first_error ks1 rs1 k ks2 st v rs2 [] hlen hgood
      hok hnf

/-- Witness for C4: a three-key lookup with one present, one NotFound and
one present key yields the expected mapping, and a corrupted middle key
aborts with the translator's corruption error. -/
theorem multi_get_spec_witness :
    (∃ d,
      DB.multi_get ["a", "b", "c"]
        [(⟨StatusCode.ok, ""⟩, "va"), (⟨StatusCode.notFound, "nf"⟩, ""),
          (⟨StatusCode.ok, ""⟩, "vc")] = Except.ok d ∧
      (∀ x, x ∈ keysOf d ↔ x ∈ ["a", "b", "c"]) ∧
      (∀ x ∈ ["a", "b", "c"], (keysOf d).count x = 1) ∧
      ((["a", "b", "c"] : List String).Nodup →
        ∀ pr ∈ (["a", "b", "c"] : List String).zip
          [(⟨StatusCode.ok, ""⟩, "va"), (⟨StatusCode.notFound, "nf"⟩, ""),
            (⟨StatusCode.ok, ""⟩, "vc")],
          dictLookup d pr.1 = some (resultEntry pr.2.1 pr.2.2))) ∧
    (∃ e, check_status ⟨StatusCode.corruption, "bad"⟩ = Except.error e ∧
      DB.multi_get (["a"] ++ "b" :: ["c"])
        ([(⟨StatusCode.ok, ""⟩, "va")] ++
          (⟨StatusCode.corruption, "bad"⟩, "") ::
            [(⟨StatusCode.ok, ""⟩, "vc")]) = Except.error e) :=
  ⟨multi_get_spec.1 ["a", "b", "c"]
      [(⟨StatusCode.ok, ""⟩, "va"), (⟨StatusCode.notFound, "nf"⟩, ""),
        (⟨StatusCode.ok, ""⟩, "vc")] rfl (by decide),
   multi_get_spec.2 ["a"] [(⟨StatusCode.ok, ""⟩, "va")] "b" ["c"]
      ⟨StatusCode.corruption, "bad"⟩ "" [(⟨StatusCode.ok, ""⟩, "vc")] rfl
      (by decide) rfl rfl⟩

/-! ## Options: polymorphic slots and the compression setting
(`_rocksdb.pyx` lines 68-131, 399-427, 483-506, 826-900)

The ~50 scalar tuning knobs of `Options` are direct passthroughs to fields
of the native `options.Options` record and are independent of every claim;
the model keeps the four polymorphic slots (comparator, merge operator,
filter policy, block caches), the native comparator pointer they feed, and
treats the `compression` property as a transformer of the native
`opts.compression` field. -/

/-- A caller-supplied candidate for a bridge slot, described by the
capabilities it exposes. -/
structure CandidateObject where
  hasName : Bool
  hasCompare : Bool
deriving DecidableEq, Repr

/-- Modelled from the spec: the `interfaces` module (the abstract
`Comparator` capability class checked by `isinstance(ob, IComparator)` in
`PyGenericComparator.__cinit__`) is imported by `_rocksdb.pyx` but its file
is not under `src/`; per section 4.2 the comparator capability is exactly
exposing `name` and `compare`. -/
def isIComparator (ob : CandidateObject) : Bool :=
  ob.hasName && ob.hasCompare

/-- A stored comparator slot value: the built-in `PyBytewiseComparator` or
a `PyGenericComparator` over a validated caller object. -/
inductive PyComparatorVal where
  | bytewise
  | generic (ob : CandidateObject)
deriving DecidableEq, Repr

/-- The native comparator pointer held by `opts.comparator`: the engine's
`BytewiseComparator()` singleton or a `ComparatorWrapper` around the caller
object. -/
inductive NativeComparator where
  | bytewiseComparator
  | comparatorWrapper (ob : CandidateObject)
deriving DecidableEq, Repr

def PyComparatorVal.get_comparator : PyComparatorVal → NativeComparator
  | .bytewise => .bytewiseComparator
  | .generic ob => .comparatorWrapper ob

/-- The Python object a comparator getter hands back: `get_ob` of
`PyBytewiseComparator` returns the wrapper itself, `get_ob` of
`PyGenericComparator` returns the caller's object. -/
inductive SlotOb where
  | bytewiseComparatorOb
  | userOb (ob : CandidateObject)
deriving DecidableEq, Repr

def PyComparatorVal.get_ob : PyComparatorVal → SlotOb
  | .bytewise => .bytewiseComparatorOb
  | .generic ob => .userOb ob

/-- Embedding of `PyGenericComparator.__cinit__` (lines 81-91): an object
that is not an `IComparator` instance is rejected with a `TypeError` before
anything is stored; a valid object is wrapped. -/
def PyGenericComparator_cinit (ob : CandidateObject) :
    Except PyExc PyComparatorVal :=
  if !(isIComparator ob) then
    .error (.typeError ("Cannot set comparator: %s"))
  else
    .ok (.generic ob)

structure Options where
  py_comparator : Option PyComparatorVal
  py_merge_operator : Option CandidateObject
  py_filter_policy : Option CandidateObject
  py_block_cache : Option Nat
  py_block_cache_compressed : Option Nat
  opts_comparator : NativeComparator
deriving DecidableEq, Repr

/-- Embedding of `Options.__init__` with no keyword arguments (lines
419-427): the comparator slot is populated with `BytewiseComparator()`, the
other four polymorphic slots are set to `None`.  The native
`options.Options()` record starts from engine defaults, whose comparator is
the engine's bytewise singleton. -/
def Options.init : Options where
  py_comparator := some .bytewise
  py_merge_operator := none
  py_filter_policy := none
  py_block_cache := none
  py_block_cache_compressed := none
  opts_comparator := .bytewiseComparator

/-- Embedding of the `comparator` property getter (lines 826-828). -/
def Options.comparator_get (o : Options) : Option SlotOb :=
  match o.py_comparator with
  | some c => some c.get_ob
  | none => none

/-- Embedding of the `merge_operator` property getter (lines 841-845). -/
def Options.merge_operator_get (o : Options) : Option CandidateObject :=
  o.py_merge_operator

/-- Embedding of the `filter_policy` property getter (lines 851-855). -/
def Options.filter_policy_get (o : Options) : Option CandidateObject :=
  o.py_filter_policy

/-- Embedding of the `block_cache` property getter (lines 867-871). -/
def Options.block_cache_get (o : Options) : Option Nat :=
  o.py_block_cache

/-- Embedding of the `block_cache_compressed` property getter (lines
884-888). -/
def Options.block_cache_compressed_get (o : Options) : Option Nat :=
  o.py_block_cache_compressed

/-- The argument of the `comparator` property setter: either an existing
`PyComparator` instance (whose `get_comparator()` may be the base class's
NULL) or an arbitrary caller object. -/
inductive ComparatorSetValue where
  | pyComparator (c : Option PyComparatorVal)
  | other (ob : CandidateObject)
deriving DecidableEq, Repr

/-- Embedding of the `comparator` property setter (lines 826-839): a
`PyComparator` with a NULL native pointer is rejected; an arbitrary object
goes through `PyGenericComparator.__cinit__`, whose `TypeError` aborts the
assignment before either field is touched; on success both the Python slot
and the native pointer are updated. -/
def Options.comparator_set (o : Options) (value : ComparatorSetValue) :
    (Except PyExc Unit) × Options :=
  match value with
  | .pyComparator none =>
    (.error (.exception ("Cannot set %s as comparator")), o)
  | .pyComparator (some c) =>
    (.ok (), { o with py_comparator := some c,
                      opts_comparator := c.get_comparator })
  | .other ob =>
    match PyGenericComparator_cinit ob with
    | .error e => (.error e, o)
    | .ok c =>
      (.ok (), { o with py_comparator := some c,
                        opts_comparator := c.get_comparator })

/-- C5: setting the comparator slot from an object lacking the required
capabilities raises an Invalid-Argument-class error and leaves the whole
configuration, in particular the comparator slot and the native comparator
pointer, unchanged. -/
theorem comparator_set_invalid (o : Options) (ob : CandidateObject)
    (h : isIComparator ob = false) :
    ∃ e, Options.comparator_set o (.other ob) = (Except.error e, o) ∧
      e.isInvalidArgumentClass = true := by
  refine ⟨.typeError ("Cannot set comparator: %s"), ?_, rfl⟩
  simp [Options.comparator_set, PyGenericComparator_cinit, h]

/-- Witness for C5: an object with a `name` but no `compare` is rejected
and the fresh configuration is left intact. -/
theorem comparator_set_invalid_witness :
    ∃ e, Options.comparator_set Options.init (.other ⟨true, false⟩) =
        (Except.error e, Options.init) ∧
      e.isInvalidArgumentClass = true :=
  comparator_set_invalid Options.init ⟨true, false⟩ rfl

/-- C10: a freshly constructed configuration has its comparator slot
populated with the built-in bytewise comparator — reading it never yields
absent — while the merge-operator, filter-policy and both block-cache slots
all read back as `None`. -/
theorem options_init_slots :
    Options.comparator_get Options.init = some SlotOb.bytewiseComparatorOb ∧
    Options.comparator_get Options.init ≠ none ∧
    Options.merge_operator_get Options.init = none ∧
    Options.filter_policy_get Options.init = none ∧
    Options.block_cache_get Options.init = none ∧
    Options.block_cache_compressed_get Options.init = none := by
  refine ⟨rfl, ?_, rfl, rfl, rfl, rfl⟩
  simp [Options.comparator_get, Options.init, PyComparatorVal.get_ob]

/-! ### Compression (`CompressionType` lines 399-403, property lines
483-506) -/

def CompressionType.no_compression : String := "no_compression"

def CompressionType.snappy_compression : String := "snappy_compression"

def CompressionType.zlib_compression : String := "zlib_compression"

def CompressionType.bzip2_compression : String := "bzip2_compression"

/-- The engine-side `options` compression enumerants referenced by the
source. -/
inductive CompressionKind where
  | kNoCompression
  | kSnappyCompression
  | kZlibCompression
  | kBZip2Compression
deriving DecidableEq, Repr

/-- Embedding of the `compression` property setter (lines 496-506),
transforming the native `opts.compression` field: the four enumerants map
to the engine enum, anything else raises `TypeError` and leaves the field
as it was (the raise precedes any assignment). -/
def Options.compression_set (cur : CompressionKind) (value : String) :
    (Except PyExc Unit) × CompressionKind :=
  if value == CompressionType.no_compression then
    (.ok (), .kNoCompression)
  else if value == CompressionType.snappy_compression then
    (.ok (), .kSnappyCompression)
  else if value == CompressionType.zlib_compression then
    (.ok (), .kZlibCompression)
  else if value == CompressionType.bzip2_compression then
    (.ok (), .kBZip2Compression)
  else
    (.error (.typeError ("Unknown compression: " ++ value)), cur)

/-- Embedding of the `compression` property getter (lines 484-494): each
engine enumerant reads back as its `CompressionType` constant (the source's
final `raise` branch is unreachable over the four enumerants the source
ever stores). -/
def Options.compression_get : CompressionKind → String
  | .kNoCompression => CompressionType.no_compression
  | .kSnappyCompression => CompressionType.snappy_compression
  | .kZlibCompression => CompressionType.zlib_compression
  | .kBZip2Compression => CompressionType.bzip2_compression

/-- C6: every value in the closed set {none, snappy, zlib, bzip2} is
accepted, stored, and read back as the same enumerant; every other value
raises an Invalid-Argument-class error and leaves the stored setting
unchanged. -/
theorem compression_roundtrip (cur : CompressionKind) (value : String) :
    (value ∈ [CompressionType.no_compression,
        CompressionType.snappy_compression, CompressionType.zlib_compression,
        CompressionType.bzip2_compression] →
      (Options.compression_set cur value).1 = Except.ok () ∧
      Options.compression_get (Options.compression_set cur value).2 =
        value) ∧
    (value ∉ [CompressionType.no_compression,
        CompressionType.snappy_compression, CompressionType.zlib_compression,
        CompressionType.bzip2_compression] →
      ∃ e, (Options.compression_set cur value).1 = Except.error e ∧
        e.isInvalidArgumentClass = true ∧
        (Options.compression_set cur value).2 = cur) := by
  constructor
  · intro hv
    simp only [List.mem_cons, List.not_mem_nil, or_false] at hv
    rcases hv with rfl | rfl | rfl | rfl
    · exact ⟨rfl, rfl⟩
    · exact ⟨rfl, rfl⟩
    · exact ⟨rfl, rfl⟩
    · exact ⟨rfl, rfl⟩
  · intro hv
    simp only [List.mem_cons, List.not_mem_nil, or_false, not_or] at hv
    obtain ⟨h1, h2, h3, h4⟩ := hv
    have b1 : (value == CompressionType.no_compression) = false := by
      simp [beq_eq_false_iff_ne, h1]
    have b2 : (value == CompressionType.snappy_compression) = false := by
      simp [beq_eq_false_iff_ne, h2]
    have b3 : (value == CompressionType.zlib_compression) = false := by
      simp [beq_eq_false_iff_ne, h3]
    have b4 : (value == CompressionType.bzip2_compression) = false := by
      simp [beq_eq_false_iff_ne, h4]
    refine ⟨.typeError ("Unknown compression: " ++ value), ?_, rfl, ?_⟩ <;>
      simp [Options.compression_set, b1, b2, b3, b4]

/-- Witness for C6: snappy round-trips; the string "lz4" is rejected with
the setting left unchanged. -/
theorem compression_roundtrip_witness :
    ((Options.compression_set CompressionKind.kNoCompression
        "snappy_compression").1 = Except.ok () ∧
      Options.compression_get (Options.compression_set
        CompressionKind.kNoCompression "snappy_compression").2 =
        "snappy_compression") ∧
    (∃ e, (Options.compression_set CompressionKind.kNoCompression
        "lz4").1 = Except.error e ∧
      e.isInvalidArgumentClass = true ∧
      (Options.compression_set CompressionKind.kNoCompression "lz4").2 =
        CompressionKind.kNoCompression) :=
  ⟨(compression_roundtrip CompressionKind.kNoCompression
      "snappy_compression").1 (by decide),
   (compression_roundtrip CompressionKind.kNoCompression "lz4").2
      (by decide)⟩

/-! ## Read options (`__parse_read_opts` lines 1121-1130,
`build_read_opts` lines 1132-1147) -/

/-- The keyword dict produced by `__parse_read_opts`; `snapshot` is the
optional native snapshot pointer of the `Snapshot` object passed in. -/
structure PyReadOpts where
  verify_checksums : Bool
  fill_cache : Bool
  prefix_seek : Bool
  snapshot : Option Nat
  read_tier : String
deriving DecidableEq, Repr

/-- The engine's read-tier enumerants referenced by the source. -/
inductive ReadTier where
  | kReadAllTier
  | kBlockCacheTier
deriving DecidableEq, Repr

/-- The native `options.ReadOptions` record as filled by
`build_read_opts`. -/
structure ReadOptionsNative where
  verify_checksums : Bool
  fill_cache : Bool
  prefix_seek : Bool
  snapshot : Option Nat
  read_tier : ReadTier
deriving DecidableEq, Repr

/-- Embedding of `DB.build_read_opts` (lines 1132-1147): the scalar fields
are copied, the snapshot pointer is installed when present, and `read_tier`
"all" / "cache" map to the engine tiers, anything else raising
`ValueError`. -/
def DB.build_read_opts (p : PyReadOpts) : Except PyExc ReadOptionsNative :=
  if p.read_tier == "all" then
    .ok ⟨p.verify_checksums, p.fill_cache, p.prefix_seek, p.snapshot,
      .kReadAllTier⟩
  else if p.read_tier == "cache" then
    .ok ⟨p.verify_checksums, p.fill_cache, p.prefix_seek, p.snapshot,
      .kBlockCacheTier⟩
  else
    .error (.valueError ("Invalid read_tier"))

/-- C7: a read-options dict with `read_tier` "all" or "cache" is accepted
and mapped to the corresponding engine tier; any other `read_tier` raises
an Invalid-Argument-class error. -/
theorem build_read_opts_tier (p : PyReadOpts) :
    (p.read_tier = "all" →
      DB.build_read_opts p = Except.ok ⟨p.verify_checksums, p.fill_cache,
        p.prefix_seek, p.snapshot, ReadTier.kReadAllTier⟩) ∧
    (p.read_tier = "cache" →
      DB.build_read_opts p = Except.ok ⟨p.verify_checksums, p.fill_cache,
        p.prefix_seek, p.snapshot, ReadTier.kBlockCacheTier⟩) ∧
    (p.read_tier ≠ "all" → p.read_tier ≠ "cache" →
      ∃ e, DB.build_read_opts p = Except.error e ∧
        e.isInvalidArgumentClass = true) := by
  refine ⟨fun h => ?_, fun h => ?_, fun h1 h2 => ?_⟩
  · simp [DB.build_read_opts, h]
  · have hna : (p.read_tier == "all") = false := by
      simp [beq_eq_false_iff_ne, h]
    simp [DB.build_read_opts, hna, h]
  · have hna : (p.read_tier == "all") = false := by
      simp [beq_eq_false_iff_ne, h1]
    have hnc : (p.read_tier == "cache") = false := by
      simp [beq_eq_false_iff_ne, h2]
    exact ⟨.valueError ("Invalid read_tier"),
      by simp [DB.build_read_opts, hna, hnc], rfl⟩

/-- Witness for C7 at concrete read-option dicts. -/
theorem build_read_opts_tier_witness :
    DB.build_read_opts ⟨false, true, false, none, "all"⟩ =
      Except.ok ⟨false, true, false, none, ReadTier.kReadAllTier⟩ ∧
    DB.build_read_opts ⟨true, false, true, some 7, "cache"⟩ =
      Except.ok ⟨true, false, true, some 7, ReadTier.kBlockCacheTier⟩ ∧
    ∃ e, DB.build_read_opts ⟨false, true, false, none, "disk"⟩ =
      Except.error e ∧ e.isInvalidArgumentClass = true :=
  ⟨(build_read_opts_tier ⟨false, true, false, none, "all"⟩).1 rfl,
   (build_read_opts_tier ⟨true, false, true, some 7, "cache"⟩).2.1 rfl,
   (build_read_opts_tier ⟨false, true, false, none, "disk"⟩).2.2
      (by decide) (by decide)⟩

/-! ## Cursors (`BaseIterator` lines 1166-1203, `ReversedIterator` lines
1220-1248)

The engine's native iterator (an external collaborator) is modelled as the
ordered run of entries it traverses plus an optional current index (`none`
is the invalid / exhausted state): `Valid`, `Next`, `Prev`, `SeekToFirst`,
`SeekToLast` and `Seek` follow the engine iterator contract the source
calls through `iterator.Iterator`.  `BaseIterator` owns one such native
state; `ReversedIterator` holds the wrapped `BaseIterator`, so in this
state-passing embedding an operation through the wrapper is a function of
the one shared native state. -/

structure It where
  entries : List (String × String)
  pos : Option Nat
deriving DecidableEq, Repr

def It.Valid (i : It) : Bool :=
  match i.pos with
  | some p => decide (p < i.entries.length)
  | none => false

def It.Next (i : It) : It :=
  match i.pos with
  | some p =>
    { i with pos := if p + 1 < i.entries.length then some (p + 1) else none }
  | none => i

def It.Prev (i : It) : It :=
  match i.pos with
  | some p => { i with pos := if p = 0 then none else some (p - 1) }
  | none => i

def It.SeekToFirst (i : It) : It :=
  { i with pos := if 0 < i.entries.length then some 0 else none }

def It.SeekToLast (i : It) : It :=
  { i with pos :=
      if 0 < i.entries.length then some (i.entries.length - 1) else none }

def It.Seek (i : It) (key : String) : It :=
  { i with pos := i.entries.findIdx? (fun e => decide (key ≤ e.1)) }

/-- A `BaseIterator`: the native iterator state it owns (`self.ptr`).  The
subclass hook `get_ob` (key / value / item extraction) is passed as the
function argument `g` of `next` below. -/
structure BaseIterator where
  ptr : It
deriving DecidableEq, Repr

/-- A `ReversedIterator` holds the wrapped `BaseIterator` itself
(`self.it`), not a copy: every operation below reads and writes the wrapped
iterator's state. -/
structure ReversedIterator where
  it : BaseIterator
deriving DecidableEq, Repr

/-- Embedding of `BaseIterator.__next__` (lines 1182-1188): `StopIteration`
(modelled `none`) when not valid, else the current object followed by
`self.ptr.Next()`. -/
def BaseIterator.next {α : Type} (g : It → α) (b : BaseIterator) :
    Option α × BaseIterator :=
  if b.ptr.Valid then (some (g b.ptr), ⟨b.ptr.Next⟩) else (none, b)

def BaseIterator.seek_to_first (b : BaseIterator) : BaseIterator :=
  ⟨b.ptr.SeekToFirst⟩

def BaseIterator.seek_to_last (b : BaseIterator) : BaseIterator :=
  ⟨b.ptr.SeekToLast⟩

def BaseIterator.seek (b : BaseIterator) (key : String) : BaseIterator :=
  ⟨b.ptr.Seek key⟩

/-- Embedding of `BaseIterator.__reversed__` (lines 1190-1191). -/
def BaseIterator.reversed (b : BaseIterator) : ReversedIterator :=
  ⟨b⟩

/-- Embedding of `ReversedIterator.__next__` (lines 1242-1248): the same
validity test and object extraction on the wrapped cursor, but stepping
with `Prev` instead of `Next`. -/
def ReversedIterator.next {α : Type} (g : It → α) (r : ReversedIterator) :
    Option α × ReversedIterator :=
  if r.it.ptr.Valid then (some (g r.it.ptr), ⟨⟨r.it.ptr.Prev⟩⟩)
  else (none, r)

/-- Embedding of `ReversedIterator.seek_to_first` (lines 1227-1228):
delegates to the wrapped cursor. -/
def ReversedIterator.seek_to_first (r : ReversedIterator) :
    ReversedIterator :=
  ⟨r.it.seek_to_first⟩

def ReversedIterator.seek_to_last (r : ReversedIterator) :
    ReversedIterator :=
  ⟨r.it.seek_to_last⟩

def ReversedIterator.seek (r : ReversedIterator) (key : String) :
    ReversedIterator :=
  ⟨r.it.seek key⟩

/-- Embedding of `ReversedIterator.__reversed__` (lines 1239-1240): hands
back the wrapped `BaseIterator` itself. -/
def ReversedIterator.reversed (r : ReversedIterator) : BaseIterator :=
  r.it

/-- C9: the reverse wrapper exposes the traversal operations over the very
state of the wrapped cursor — each seek through the wrapper effects exactly
the wrapped cursor's seek on the shared position, its `next` yields the
same current object but steps the shared position with the engine's `Prev`
where the base steps with `Next` (from a valid index `p` the base moves to
`p + 1` and the wrapper to `p - 1`, exhausting at the respective end) — and
reversing the wrapper yields the original cursor again. -/
theorem reversed_iterator_spec {α : Type} (g : It → α) :
    (∀ b : BaseIterator, (b.reversed).reversed = b) ∧
    (∀ (b : BaseIterator) (k : String),
      ((b.reversed).seek k).it = b.seek k) ∧
    (∀ b : BaseIterator, ((b.reversed).seek_to_first).it = b.seek_to_first) ∧
    (∀ b : BaseIterator, ((b.reversed).seek_to_last).it = b.seek_to_last) ∧
    (∀ b : BaseIterator,
      (ReversedIterator.next g b.reversed).1 = (BaseIterator.next g b).1 ∧
      ((ReversedIterator.next g b.reversed).2).it.ptr =
        (if b.ptr.Valid then b.ptr.Prev else b.ptr) ∧
      ((BaseIterator.next g b).2).ptr =
        (if b.ptr.Valid then b.ptr.Next else b.ptr)) ∧
    (∀ (entries : List (String × String)) (p : Nat), p < entries.length →
      (It.Next ⟨entries, some p⟩).pos =
        (if p + 1 < entries.length then some (p + 1) else none) ∧
      (It.Prev ⟨entries, some p⟩).pos =
        (if p = 0 then none else some (p - 1))) := by
  refine ⟨fun b => rfl, fun b k => rfl, fun b => rfl, fun b => rfl,
    fun b => ?_, fun entries p _ => ⟨rfl, rfl⟩⟩
  by_cases h : b.ptr.Valid = true <;>
    simp [ReversedIterator.next, BaseIterator.next, BaseIterator.reversed, h]

/-- Witness for C9: on a two-entry cursor positioned at index 1, the
wrapper's `next` steps the shared position back to index 0 while the base's
`next` would exhaust it, and the semantic stepping facts hold at index 1 of
a two-entry run. -/
theorem reversed_iterator_spec_witness :
    (ReversedIterator.next (fun i => i.pos)
        (BaseIterator.reversed ⟨⟨[("a", "1"), ("b", "2")], some 1⟩⟩)).2.it.ptr =
      (if It.Valid ⟨[("a", "1"), ("b", "2")], some 1⟩ then
        It.Prev ⟨[("a", "1"), ("b", "2")], some 1⟩
      else ⟨[("a", "1"), ("b", "2")], some 1⟩) ∧
    (It.Next ⟨[("a", "1"), ("b", "2")], some 1⟩).pos =
      (if 1 + 1 < 2 then some (1 + 1) else none) ∧
    (It.Prev ⟨[("a", "1"), ("b", "2")], some 1⟩).pos =
      (if 1 = 0 then none else some (1 - 1)) :=
  ⟨((reversed_iterator_spec (fun i => i.pos)).2.2.2.2.1
      ⟨⟨[("a", "1"), ("b", "2")], some 1⟩⟩).2.1,
   ((reversed_iterator_spec (fun i => i.pos)).2.2.2.2.2
      [("a", "1"), ("b", "2")] 1 (by decide)).1,
   ((reversed_iterator_spec (fun i => i.pos)).2.2.2.2.2
      [("a", "1"), ("b", "2")] 1 (by decide)).2⟩

end PyRocks
